import Mathlib

/-! Shallow embedding of the Pollexy `MessageManager`
(src/messages/message_manager.py): the two channel queues, the
per-(id, recipient) occurrence store driven through the external
`Scheduler`, and the receive / compose / resolve / reset / publish
operations, followed by theorems about them.  Timestamps are abstracted
to `Nat`; the SQS transport is modelled as a FIFO list per channel, with
`receive_messages` returning a prefix of up to `MaxNumberOfMessages`
records (records stay in the channel until deleted by receipt handle). -/

namespace Pollexy

/-- One queued channel record, as seen by `MessageManager` after wrapping a
raw SQS message in `QueuedMessage`.  Transport data: `fromBot` records the
source queue of the record and `handle` the receipt handle used to delete
it from that queue. -/
structure Msg where
  uuid_key : String
  person_name : String
  body : String
  voice_id : String
  expirationUtc : Nat
  no_more_occurrences : Bool
  bot_names : Option String
  fromBot : Bool
  handle : Nat
deriving DecidableEq, Repr

/-- Modelled from the spec: `QueuedMessage.is_expired` (class `QueuedMessage`
of `message.py` is not under src/); spec section 3 says `isExpired` =
current time > `expiresAtUtc`. -/
def Msg.is_expired (m : Msg) (now : Nat) : Bool := decide (m.expirationUtc < now)

/-- Occurrence State of one `(id, recipientName)` pair in the external
coordinating store (spec section 3). -/
structure OccState where
  inQueue : Bool
  lastOccurrenceAt : Option Nat
  expired : Bool
deriving DecidableEq, Repr

/-- The external occurrence store, total over `(id, recipientName)` keys. -/
abbrev Store := String → String → OccState

/-- Modelled from the spec: `Scheduler.update_queue_status`
(`scheduler/scheduler.py` is not under src/); spec section 6:
`setInQueue(id, recipientName, bool)` sets the `inQueue` flag of that pair. -/
def update_queue_status (st : Store) (u p : String) (b : Bool) : Store :=
  fun uk pk => if uk = u ∧ pk = p then { st uk pk with inQueue := b } else st uk pk

/-- Modelled from the spec: `Scheduler.update_last_occurrence`
(`scheduler/scheduler.py` is not under src/); spec section 6:
`updateLastOccurrence(id, recipientName)` stamps `lastOccurrenceAt` with the
current time, passed here explicitly as `now`. -/
def update_last_occurrence (st : Store) (u p : String) (now : Nat) : Store :=
  fun uk pk =>
    if uk = u ∧ pk = p then { st uk pk with lastOccurrenceAt := some now } else st uk pk

/-- Modelled from the spec: `Scheduler.set_expired` (`scheduler/scheduler.py`
is not under src/); spec section 6: `markExpired(id, recipientName)` sets the
`expired` flag of that pair. -/
def set_expired (st : Store) (u p : String) : Store :=
  fun uk pk => if uk = u ∧ pk = p then { st uk pk with expired := true } else st uk pk

/-- The state touched by one `MessageManager` instance: the standard channel
(`self.queue`), the interactive channel (`self.bot_queue`), the accumulated
per-recipient groups (`self.messages`, an insertion-ordered dict modelled as
an association list), the raw batch of the last receive (`self.sqs_msgs`),
and the external occurrence store reached through `Scheduler`. -/
structure SysState where
  queue : List Msg
  botQueue : List Msg
  messages : List (String × List Msg)
  sqs_msgs : List Msg
  store : Store

/-- Lookup in the insertion-ordered dict `self.messages`. -/
def assocLookup (l : List (String × List Msg)) (k : String) : Option (List Msg) :=
  match l with
  | [] => none
  | (kk, v) :: rest => if kk = k then some v else assocLookup rest k

/-- Append semantics of `self.messages[k].append(m)`, creating the key at the end when absent
(python dicts preserve insertion order). -/
def assocAppend (l : List (String × List Msg)) (k : String) (m : Msg) :
    List (String × List Msg) :=
  match l with
  | [] => [(k, [m])]
  | (kk, v) :: rest =>
    if kk = k then (kk, v ++ [m]) :: rest else (kk, v) :: assocAppend rest k m

/-- The `for m in messages` loop of `MessageManager.get_messages`
(message_manager.py lines 121-137): skip a record when the `PersonName`
filter is set and does not match; otherwise group the record, retain its
raw form in `sqs_msgs`, call `Scheduler.update_queue_status(uuid,
person_name, False)`, and return the batch at once (the `return msgs` sits
inside the loop body). -/
def gmLoop (s : SysState) (personName : String) : List Msg → SysState × Option (List Msg)
  | [] => (s, none)
  | m :: rest =>
    if personName ≠ "" ∧ m.person_name ≠ personName then
      gmLoop s personName rest
    else
      ({ s with
          messages := assocAppend s.messages m.person_name m
          sqs_msgs := s.sqs_msgs ++ [m]
          store := update_queue_status s.store m.uuid_key m.person_name false },
        some [m])

/-- Embedding of `MessageManager.get_messages` (message_manager.py lines 92-137):
select the channel by `MessageType`, reset `self.sqs_msgs`, receive up to
`maxN` records, and run the processing loop; when nothing is received or
nothing matches, the python function falls through and returns `None`. -/
def get_messages (s : SysState) (personName msgType : String) (maxN : Nat) :
    SysState × Option (List Msg) :=
  let q := if msgType = "Message" then s.queue else s.botQueue
  let fetched := q.take maxN
  let s1 := { s with sqs_msgs := ([] : List Msg) }
  if fetched.length > 0 then gmLoop s1 personName fetched else (s1, none)

/-- One `client.delete_message` call of `MessageManager.delete_sqs_msgs`
(message_manager.py lines 156-162): remove the record with this receipt
handle from its source queue; deleting an absent handle is a no-op. -/
def delete_one (s : SysState) (m : Msg) : SysState :=
  if m.fromBot then
    { s with botQueue := s.botQueue.filter (fun x => x.handle != m.handle) }
  else
    { s with queue := s.queue.filter (fun x => x.handle != m.handle) }

/-- Embedding of `MessageManager.delete_sqs_msgs` (message_manager.py lines 156-162):
delete every record of `self.sqs_msgs` from its source queue; the
`sqs_msgs` field itself is not cleared. -/
def delete_sqs_msgs (s : SysState) : SysState :=
  s.sqs_msgs.foldl delete_one s

/-- Embedding of `MessageManager.fail_messages` (message_manager.py lines 164-176):
with `DontDelete` set the function returns at once; otherwise it sets
`inQueue` to `False` for every record of `self.sqs_msgs` and then deletes
the raw records from their queues. -/
def fail_messages (s : SysState) (dontDelete : Bool) : SysState :=
  if dontDelete then s
  else
    let s1 := { s with
      store := s.sqs_msgs.foldl
        (fun st m => update_queue_status st m.uuid_key m.person_name false) s.store }
    delete_sqs_msgs s1

/-- The per-record store update of `MessageManager.succeed_messages`
(message_manager.py lines 186-192): stamp `lastOccurrenceAt`, clear
`inQueue`, and set `expired` when the record has no more occurrences. -/
def succeed_one (now : Nat) (st : Store) (m : Msg) : Store :=
  let st1 := update_last_occurrence st m.uuid_key m.person_name now
  let st2 := update_queue_status st1 m.uuid_key m.person_name false
  if m.no_more_occurrences then set_expired st2 m.uuid_key m.person_name else st2

/-- Embedding of `MessageManager.succeed_messages` (message_manager.py lines 178-193):
with `DontDelete` set the function returns at once; otherwise it applies
the success updates to every record of `self.sqs_msgs` and then deletes
the raw records from their queues. -/
def succeed_messages (s : SysState) (dontDelete : Bool) (now : Nat) : SysState :=
  if dontDelete then s
  else
    let s1 := { s with store := s.sqs_msgs.foldl (succeed_one now) s.store }
    delete_sqs_msgs s1

/-- Embedding of `MessageManager.reset` (message_manager.py lines 195-203): one
receive on the bot channel, fail and delete, then one receive on the
standard channel, fail and delete (each `fail_messages()` call already
deletes once; the explicit `delete_sqs_msgs()` that follows repeats the
same deletions). -/
def reset (s : SysState) : SysState :=
  let s1 := (get_messages s "" "Bot" 10).1
  let s2 := fail_messages s1 false
  let s3 := delete_sqs_msgs s2
  let s4 := (get_messages s3 "" "Message" 10).1
  let s5 := fail_messages s4 false
  delete_sqs_msgs s5

/-- The accumulator loop of `MessageManager.write_speech`
(message_manager.py lines 146-149): starting from the opening markup tag,
append a paragraph for every non-expired record of the group. -/
def write_speech_body (g : List Msg) (now : Nat) : String :=
  g.foldl
    (fun acc m => if m.is_expired now then acc else acc ++ "<p>" ++ m.body ++ "</p>") "<speak>"

/-- Embedding of `MessageManager.write_speech` (message_manager.py lines 139-154):
receive for the recipient, then compose the markup from the accumulated
group of that recipient.  `rt` stands for `SpeechHelper.replace_tokens`
(helpers/speech.py is not under src/; spec section 1 treats token
substitution as an external collaborator), passed as a parameter.  The
python code indexes `self.messages[person_name]` after only checking that
the whole dict is non-empty, so a missing key raises `KeyError`; after the
loop the variable `m` holds the last record of the whole group, expired or
not, and its voice id is returned first in the pair. -/
def write_speech (rt : String → String) (s : SysState) (personName : String) (now : Nat) :
    SysState × Except String (Option (String × String)) :=
  let s1 := (get_messages s personName "Message" 10).1
  if s1.messages.length = 0 then (s1, .ok none)
  else
    match assocLookup s1.messages personName with
    | none => (s1, .error "KeyError")
    | some g =>
      let speech := write_speech_body g now
      if speech = "<speak>" then (s1, .ok none)
      else
        match g.getLast? with
        | none => (s1, .error "NameError")
        | some mLast => (s1, .ok (some (mLast.voice_id, rt (speech ++ "</speak>"))))

/-- Truthiness of an optional string keyword argument (python: `None` and
the empty string are falsy). -/
def optTruthy : Option String → Bool
  | none => false
  | some v => v != ""

/-- The keyword arguments of `MessageManager.publish_message` with their
python defaults (message_manager.py lines 205-215).  `uuidArg = none`
stands for an absent `UUID` keyword, which python defaults to a freshly
generated `uuid.uuid4()` string, passed to the model as `genUuid`. -/
structure PublishArgs where
  expirationUtc : Nat := 10412707200
  body : String := ""
  uuidArg : Option String := none
  noMoreOccurrences : Bool := false
  personName : String := ""
  botNames : Option String := none
  requiredBots : Option String := none
  iceBreaker : Option String := none
  voiceId : String := "Joanna"
deriving Repr

/-- The record a successful `publish_message` call places on a channel,
with a transport handle `hnd` assigned by the queue service. -/
def publishedMsg (a : PublishArgs) (genUuid : String) (hnd : Nat) : Msg :=
  { uuid_key := a.uuidArg.getD genUuid
    person_name := a.personName
    body := a.body
    voice_id := a.voiceId
    expirationUtc := a.expirationUtc
    no_more_occurrences := a.noMoreOccurrences
    bot_names := a.botNames
    fromBot := optTruthy a.botNames
    handle := hnd }

/-- Embedding of `MessageManager.publish_message` (message_manager.py lines 205-279):
validate `PersonName`, the defaulted `UUID`, and `Body` in that order
(python truthiness: empty string fails), then send the record to the bot
queue when `BotNames` is truthy and to the standard queue otherwise. -/
def publish_message (s : SysState) (a : PublishArgs) (genUuid : String) (hnd : Nat) :
    Except String SysState :=
  let uuidKey := a.uuidArg.getD genUuid
  if a.personName = "" then .error "No person provided"
  else if uuidKey = "" then .error "No uuid provided"
  else if a.body = "" then .error "No message body provided"
  else if optTruthy a.botNames then
    .ok { s with botQueue := s.botQueue ++ [publishedMsg a genUuid hnd] }
  else
    .ok { s with queue := s.queue ++ [publishedMsg a genUuid hnd] }

/-- Did `publish_message` reject the request? -/
def isErr (r : Except String SysState) : Bool :=
  match r with
  | .error _ => true
  | .ok _ => false

deriving instance DecidableEq for Except

/-! Concrete states used to evaluate the operations. -/

/-- A store in which every pair is marked in-queue and never delivered. -/
def store0 : Store := fun _ _ => { inQueue := true, lastOccurrenceAt := none, expired := false }

/-- A standard-channel record for recipient alice. -/
def mA1 : Msg :=
  { uuid_key := "u1", person_name := "alice", body := "hello", voice_id := "VoiceA"
    expirationUtc := 100, no_more_occurrences := false, bot_names := none
    fromBot := false, handle := 1 }

/-- A second standard-channel record for alice. -/
def mA2 : Msg :=
  { uuid_key := "u2", person_name := "alice", body := "bye", voice_id := "VoiceA"
    expirationUtc := 100, no_more_occurrences := false, bot_names := none
    fromBot := false, handle := 2 }

/-- A standard-channel record for recipient bob. -/
def mB1 : Msg :=
  { uuid_key := "u3", person_name := "bob", body := "hey", voice_id := "VoiceB"
    expirationUtc := 100, no_more_occurrences := false, bot_names := none
    fromBot := false, handle := 3 }

/-- A bot-channel record for recipient bob. -/
def mBot1 : Msg :=
  { uuid_key := "u4", person_name := "bob", body := "chat", voice_id := "VoiceB"
    expirationUtc := 100, no_more_occurrences := false, bot_names := some "LexBot"
    fromBot := true, handle := 4 }

/-- An already-expired record for alice (expires at 1, evaluated at time 5). -/
def mExp : Msg :=
  { uuid_key := "u5", person_name := "alice", body := "later", voice_id := "VoiceB"
    expirationUtc := 1, no_more_occurrences := false, bot_names := none
    fromBot := false, handle := 5 }

/-- Fresh manager state holding one standard record for alice. -/
def exC1 : SysState :=
  { queue := [mA1], botQueue := [], messages := [], sqs_msgs := [], store := store0 }

/-- Fresh manager state holding two standard records for alice. -/
def exC2 : SysState :=
  { queue := [mA1, mA2], botQueue := [], messages := [], sqs_msgs := [], store := store0 }

/-- Post-receive manager state whose pending batch is the single record
`mA1`, still present in the channel. -/
def exBatch : SysState :=
  { queue := [mA1], botQueue := [], messages := [("alice", [mA1])]
    sqs_msgs := [mA1], store := store0 }

/-- Manager state whose accumulated group for alice holds one live record
followed by one expired record with a different voice. -/
def exC6 : SysState :=
  { queue := [], botQueue := [], messages := [("alice", [mA1, mExp])]
    sqs_msgs := [], store := store0 }

/-- Manager state whose accumulated groups are non-empty but hold nothing
for alice. -/
def exC6k : SysState :=
  { queue := [], botQueue := [], messages := [("bob", [mB1])]
    sqs_msgs := [], store := store0 }

/-- Fresh manager state with one standard record for alice and one bot
record for bob. -/
def exC7 : SysState :=
  { queue := [mA1], botQueue := [mBot1], messages := [], sqs_msgs := [], store := store0 }

/-- Manager state with two standard records and an empty bot channel. -/
def exC10 : SysState :=
  { queue := [mA1, mB1], botQueue := [], messages := [], sqs_msgs := [], store := store0 }

/-- Manager state with one standard record for alice, a previously
accumulated group for carol, and a stale raw batch. -/
def exC7w : SysState :=
  { queue := [mA1], botQueue := [], messages := [("carol", [mB1])]
    sqs_msgs := [mBot1], store := store0 }

/-- A valid publish request carrying bot names. -/
def a8 : PublishArgs :=
  { body := "hi", uuidArg := some "u9", personName := "carol", botNames := some "LexBot" }

/-- What one pass of `reset` leaves of a channel: everything except the
first record (and any record sharing its receipt handle). -/
def drop_first_by_handle : List Msg → List Msg
  | [] => []
  | x :: r => r.filter (fun y => y.handle != x.handle)

/-! Helper lemmas shared by the claim theorems. -/

/-- Lemma: `update_queue_status` writes the requested flag at its own key. -/
theorem update_queue_status_self (st : Store) (u p : String) (b : Bool) :
    ((update_queue_status st u p b) u p).inQueue = b := by
  simp [update_queue_status]

/-- Lemma: `update_queue_status` never touches `lastOccurrenceAt` or `expired`. -/
theorem update_queue_status_frame (st : Store) (u p uk pk : String) (b : Bool) :
    ((update_queue_status st u p b) uk pk).lastOccurrenceAt = (st uk pk).lastOccurrenceAt ∧
    ((update_queue_status st u p b) uk pk).expired = (st uk pk).expired := by
  unfold update_queue_status
  split <;> exact ⟨rfl, rfl⟩

/-- Lemma: `delete_one` only touches the channel queues. -/
theorem delete_one_store (s : SysState) (m : Msg) : (delete_one s m).store = s.store := by
  unfold delete_one
  split <;> rfl

/-- Folding `delete_one` over any list only touches the channel queues. -/
theorem foldl_delete_one_store (l : List Msg) :
    ∀ s : SysState, (List.foldl delete_one s l).store = s.store := by
  induction l with
  | nil => intro s; rfl
  | cons x r ih => intro s; rw [List.foldl_cons, ih, delete_one_store]

/-- Lemma: `delete_sqs_msgs` only touches the channel queues. -/
theorem delete_sqs_store (s : SysState) : (delete_sqs_msgs s).store = s.store := by
  unfold delete_sqs_msgs
  exact foldl_delete_one_store s.sqs_msgs s

/-- The store fold of `fail_messages` never touches `lastOccurrenceAt`
or `expired` at any key. -/
theorem fail_fold_frame (l : List Msg) :
    ∀ (st : Store) (u p : String),
      ((List.foldl (fun st m => update_queue_status st m.uuid_key m.person_name false) st l)
          u p).lastOccurrenceAt = (st u p).lastOccurrenceAt ∧
      ((List.foldl (fun st m => update_queue_status st m.uuid_key m.person_name false) st l)
          u p).expired = (st u p).expired := by
  induction l with
  | nil => intro st u p; exact ⟨rfl, rfl⟩
  | cons x r ih =>
    intro st u p
    rw [List.foldl_cons]
    obtain ⟨h1, h2⟩ := ih (update_queue_status st x.uuid_key x.person_name false) u p
    obtain ⟨h3, h4⟩ :=
      update_queue_status_frame st x.uuid_key x.person_name u p false
    exact ⟨h1.trans h3, h2.trans h4⟩

/-- The store fold of `fail_messages` preserves a cleared `inQueue` flag. -/
theorem fail_fold_keeps_false (l : List Msg) :
    ∀ (st : Store) (u p : String), (st u p).inQueue = false →
      ((List.foldl (fun st m => update_queue_status st m.uuid_key m.person_name false) st l)
          u p).inQueue = false := by
  induction l with
  | nil => intro st u p h; exact h
  | cons x r ih =>
    intro st u p h
    rw [List.foldl_cons]
    refine ih _ u p ?_
    unfold update_queue_status
    split
    · rfl
    · exact h

/-- The store fold of `fail_messages` clears `inQueue` at the key of every
record of the list. -/
theorem fail_fold_clears (l : List Msg) :
    ∀ (st : Store) (m : Msg), m ∈ l →
      ((List.foldl (fun st m => update_queue_status st m.uuid_key m.person_name false) st l)
          m.uuid_key m.person_name).inQueue = false := by
  induction l with
  | nil => intro _ m h; cases h
  | cons x r ih =>
    intro st m hm
    rw [List.foldl_cons]
    rcases List.mem_cons.mp hm with heq | hmem
    · subst heq
      exact fail_fold_keeps_false r _ m.uuid_key m.person_name
        (update_queue_status_self st m.uuid_key m.person_name false)
    · exact ih _ m hmem

/-- Full characterisation of the receive loop `gmLoop`: either nothing
matched and the state is untouched, or exactly one record — the first
matching one — was grouped, retained and marked, and the loop returned. -/
theorem gmLoop_spec (pn : String) (l : List Msg) :
    ∀ s : SysState,
      ((gmLoop s pn l).2 = none → (gmLoop s pn l).1 = s) ∧
      (∀ ms, (gmLoop s pn l).2 = some ms →
        ∃ m, ms = [m] ∧ (pn ≠ "" → m.person_name = pn) ∧
          (gmLoop s pn l).1 =
            { s with
                messages := assocAppend s.messages m.person_name m
                sqs_msgs := s.sqs_msgs ++ [m]
                store := update_queue_status s.store m.uuid_key m.person_name false }) := by
  induction l with
  | nil =>
    intro s
    exact ⟨fun _ => rfl, fun ms h => by simp [gmLoop] at h⟩
  | cons m rest ih =>
    intro s
    by_cases hc : pn ≠ "" ∧ m.person_name ≠ pn
    · constructor
      · intro h
        rw [gmLoop, if_pos hc] at h ⊢
        exact (ih s).1 h
      · intro ms h
        rw [gmLoop, if_pos hc] at h ⊢
        exact (ih s).2 ms h
    · constructor
      · intro h
        rw [gmLoop, if_neg hc] at h
        cases h
      · intro ms h
        rw [gmLoop, if_neg hc] at h ⊢
        refine ⟨m, ?_, ?_, rfl⟩
        · exact (Option.some.inj h).symm
        · intro hpn
          by_contra hne
          exact hc ⟨hpn, hne⟩

/-- Full characterisation of `get_messages`: the raw batch is reset, and
then either nothing matched (`None` returned, state otherwise untouched)
or exactly the first matching fetched record was processed. -/
theorem get_messages_spec (s : SysState) (pn ty : String) (n : Nat) :
    ((get_messages s pn ty n).2 = none →
      (get_messages s pn ty n).1 = { s with sqs_msgs := ([] : List Msg) }) ∧
    (∀ ms, (get_messages s pn ty n).2 = some ms →
      ∃ m, ms = [m] ∧ (pn ≠ "" → m.person_name = pn) ∧
        (get_messages s pn ty n).1 =
          { s with
              messages := assocAppend s.messages m.person_name m
              sqs_msgs := [m]
              store := update_queue_status s.store m.uuid_key m.person_name false }) := by
  constructor
  · intro h
    simp only [get_messages] at h ⊢
    by_cases hl :
        (List.take n (if ty = "Message" then s.queue else s.botQueue)).length > 0
    · rw [if_pos hl] at h ⊢
      exact (gmLoop_spec pn _ _).1 h
    · rw [if_neg hl]
  · intro ms h
    simp only [get_messages] at h ⊢
    by_cases hl :
        (List.take n (if ty = "Message" then s.queue else s.botQueue)).length > 0
    · rw [if_pos hl] at h ⊢
      obtain ⟨m, hms, hpn, hst⟩ := (gmLoop_spec pn _ _).2 ms h
      exact ⟨m, hms, hpn, hst.trans rfl⟩
    · rw [if_neg hl] at h
      cases h

/-- Appending a record for key `k0` into the group dict extends exactly the
group of `k0` at the back and leaves every other group unchanged. -/
theorem assocAppend_lookup (k0 : String) (m : Msg) (l : List (String × List Msg)) :
    ∀ (k : String) (v : List Msg), assocLookup l k = some v →
      assocLookup (assocAppend l k0 m) k =
        some (v ++ if k0 = k then [m] else []) := by
  induction l with
  | nil => intro k v h; cases h
  | cons kv rest ih =>
    intro k v h
    obtain ⟨kk, vv⟩ := kv
    rw [assocLookup] at h
    by_cases h1 : kk = k0
    · rw [assocAppend, if_pos h1]
      by_cases h2 : kk = k
      · rw [if_pos h2] at h
        rw [assocLookup, if_pos h2]
        have hk : k0 = k := h1 ▸ h2
        rw [if_pos hk, Option.some.inj h]
      · rw [if_neg h2] at h
        rw [assocLookup, if_neg h2]
        have hk : ¬k0 = k := fun hh => h2 (h1.trans hh)
        rw [h, if_neg hk, List.append_nil]
    · rw [assocAppend, if_neg h1]
      by_cases h2 : kk = k
      · rw [if_pos h2] at h
        rw [assocLookup, if_pos h2]
        have hk : ¬k0 = k := fun hh => h1 (h2.trans hh.symm)
        rw [if_neg hk, List.append_nil, Option.some.inj h]
      · rw [if_neg h2] at h
        rw [assocLookup, if_neg h2]
        exact ih k v h

/-- A successful group lookup means the dict is non-empty. -/
theorem assocLookup_length_pos (l : List (String × List Msg)) (k : String)
    (v : List Msg) (h : assocLookup l k = some v) : ¬l.length = 0 := by
  cases l with
  | nil => cases h
  | cons kv rest => simp

/-- The spec wording for the composed markup: the bodies of exactly the
non-expired records of the group, in order, each wrapped in a paragraph
delimiter. -/
def paragraphConcat (g : List Msg) (now : Nat) : String :=
  match g with
  | [] => ""
  | m :: rest =>
    (if m.is_expired now then "" else "<p>" ++ m.body ++ "</p>") ++ paragraphConcat rest now

/-- The accumulator loop of `write_speech` computes the paragraph
concatenation after its initial accumulator. -/
theorem foldl_paragraph (now : Nat) (g : List Msg) :
    ∀ a : String,
      g.foldl (fun acc m =>
          if m.is_expired now then acc else acc ++ "<p>" ++ m.body ++ "</p>") a
        = a ++ paragraphConcat g now := by
  induction g with
  | nil => intro a; rw [List.foldl_nil, paragraphConcat, String.append_empty]
  | cons m rest ih =>
    intro a
    rw [List.foldl_cons, paragraphConcat, ih]
    by_cases he : m.is_expired now
    · rw [if_pos he, if_pos he, String.empty_append]
    · rw [if_neg he, if_neg he]
      simp [String.append_assoc]

/-- Lemma: `write_speech_body` is the opening tag followed by the paragraph
concatenation. -/
theorem write_speech_body_eq (g : List Msg) (now : Nat) :
    write_speech_body g now = "<speak>" ++ paragraphConcat g now := by
  unfold write_speech_body
  exact foldl_paragraph now g "<speak>"

/-- Prepending the opening tag yields the bare tag exactly when the
paragraph concatenation is empty. -/
theorem speak_prepend_eq (q : String) : ("<speak>" ++ q = "<speak>") ↔ q = "" := by
  constructor
  · intro h
    have hl := congrArg String.length h
    rw [String.length_append] at hl
    have hz : q.length = 0 := by omega
    obtain ⟨d⟩ := q
    have hd : d.length = 0 := hz
    have hnil : d = [] := List.length_eq_zero.mp hd
    rw [hnil]
  · intro h
    rw [h, String.append_empty]

/-- When the group keeps at least one non-expired record, the paragraph
concatenation is non-empty. -/
theorem paragraphConcat_ne_empty (now : Nat) (g : List Msg)
    (h : g.filter (fun m => !(m.is_expired now)) ≠ []) :
    paragraphConcat g now ≠ "" := by
  induction g with
  | nil => exact absurd rfl h
  | cons m rest ih =>
    by_cases he : m.is_expired now
    · have hrest : rest.filter (fun m => !(m.is_expired now)) ≠ [] := by
        rw [List.filter_cons] at h
        simpa [he] using h
      rw [paragraphConcat, if_pos he, String.empty_append]
      exact ih hrest
    · rw [paragraphConcat, if_neg he]
      intro heq
      have hl := congrArg String.length heq
      rw [String.length_append, String.length_append, String.length_append] at hl
      have h3 : ("<p>" : String).length = 3 := by decide
      have h4 : ("</p>" : String).length = 4 := by decide
      have h0 : ("" : String).length = 0 := by decide
      omega

/-- Failing and deleting with an empty raw batch changes nothing. -/
theorem fail_delete_empty (t : SysState) (ht : t.sqs_msgs = []) :
    delete_sqs_msgs (fail_messages t false) = t := by
  obtain ⟨q, bq, ms, sq, st⟩ := t
  simp only at ht
  subst ht
  simp [fail_messages, delete_sqs_msgs]

/-- Lemma: `get_messages` with no recipient filter on a non-empty channel fetches
and processes exactly the head record of the channel. -/
theorem get_messages_nofilter (s : SysState) (ty : String) (b : Msg) (br : List Msg)
    (n : Nat) (hq : (if ty = "Message" then s.queue else s.botQueue) = b :: br)
    (hn : 0 < n) :
    get_messages s "" ty n =
      ({ s with
          messages := assocAppend s.messages b.person_name b
          sqs_msgs := [b]
          store := update_queue_status s.store b.uuid_key b.person_name false },
        some [b]) := by
  have htake : (if ty = "Message" then s.queue else s.botQueue).take n
      = b :: br.take (n - 1) := by
    rw [hq]
    cases n with
    | zero => exact absurd hn (by simp)
    | succ k => simp [List.take_succ_cons]
  simp only [get_messages]
  rw [htake, if_pos (by simp), gmLoop, if_neg (by simp)]
  rfl

/-- The interactive-channel pass of `reset`: the standard channel is
untouched and the bot channel loses exactly its head record. -/
theorem reset_bot_phase (s : SysState)
    (hb : ∀ m ∈ s.botQueue, m.fromBot = true) :
    ((delete_sqs_msgs (fail_messages ((get_messages s "" "Bot" 10).1) false)).queue
        = s.queue) ∧
    ((delete_sqs_msgs (fail_messages ((get_messages s "" "Bot" 10).1) false)).botQueue
        = drop_first_by_handle s.botQueue) := by
  rcases hbq : s.botQueue with _ | ⟨b, br⟩
  · have hnone : (get_messages s "" "Bot" 10).2 = none := by
      simp [get_messages, hbq]
    rw [(get_messages_spec s "" "Bot" 10).1 hnone, fail_delete_empty _ rfl]
    refine ⟨rfl, ?_⟩
    rw [hbq]
    rfl
  · have hbb : b.fromBot = true := hb b (by rw [hbq]; exact List.mem_cons_self b br)
    have hget := get_messages_nofilter s "Bot" b br 10 (by simp [hbq]) (by omega)
    rw [hget]
    simp [fail_messages, delete_sqs_msgs, delete_one, hbb, hbq, drop_first_by_handle,
      List.filter_filter]

/-- The standard-channel pass of `reset`: the bot channel is untouched and
the standard channel loses exactly its head record. -/
theorem reset_std_phase (s : SysState)
    (hq : ∀ m ∈ s.queue, m.fromBot = false) :
    ((delete_sqs_msgs (fail_messages ((get_messages s "" "Message" 10).1) false)).queue
        = drop_first_by_handle s.queue) ∧
    ((delete_sqs_msgs (fail_messages ((get_messages s "" "Message" 10).1) false)).botQueue
        = s.botQueue) := by
  rcases hsq : s.queue with _ | ⟨b, br⟩
  · have hnone : (get_messages s "" "Message" 10).2 = none := by
      simp [get_messages, hsq]
    rw [(get_messages_spec s "" "Message" 10).1 hnone, fail_delete_empty _ rfl]
    refine ⟨?_, rfl⟩
    rw [hsq]
    rfl
  · have hbb : b.fromBot = false := hq b (by rw [hsq]; exact List.mem_cons_self b br)
    have hget := get_messages_nofilter s "Message" b br 10 (by simp [hsq]) (by omega)
    rw [hget]
    simp [fail_messages, delete_sqs_msgs, delete_one, hbb, hsq, drop_first_by_handle,
      List.filter_filter]

/-! Theorems settling the claims. -/

/-- Claim C1, counterexample: the claim says receive marks Occurrence
State `inQueue=true` for a fetched record, but on a fresh state whose
store has `inQueue=true` everywhere, fetching the record `mA1` leaves its
pair `(u1, alice)` with `inQueue=false`: `get_messages` calls
`Scheduler.update_queue_status` with the literal `False`. -/
theorem C1_counterexample :
    (((get_messages exC1 "" "Message" 10).1.store "u1" "alice").inQueue = false) ∧
    (exC1.store "u1" "alice").inQueue = true := by decide

/-- Claim C2, behavior of the code at the failing input: with two matching
records for alice in the standard channel and no filter, `get_messages`
returns only the first record and groups only that one — the `return msgs`
inside the loop drops the second matching record, while the claim (the
canonical spec behavior) requires both. -/
theorem C2_code_eval :
    ((get_messages exC2 "" "Message" 10).2 = some [mA1]) ∧
    ((get_messages exC2 "" "Message" 10).1.messages = [("alice", [mA1])]) := by decide

/-- Claim C3, counterexample: the claim says `succeed_messages` with
`DontDelete=true` still applies the success-path state updates, but on a
pending batch holding `mA1` it updates nothing: `lastOccurrenceAt` stays
`none` and `inQueue` stays `true` for `(u1, alice)` — the function returns
before touching the store. -/
theorem C3_counterexample :
    (((succeed_messages exBatch true 7).store "u1" "alice").lastOccurrenceAt = none) ∧
    (((succeed_messages exBatch true 7).store "u1" "alice").inQueue = true) := by decide

/-- Claim C4, behavior of the code at the failing input: the batch
`[mA1]` is resolved successfully at time 1 and again at time 2; because
`succeed_messages` never clears `self.sqs_msgs`, the second call re-stamps
`lastOccurrenceAt` to 2, while the claim requires it to stay at its
value after the first call (1). -/
theorem C4_code_eval :
    ((succeed_messages (succeed_messages exBatch false 1) false 2).store
      "u1" "alice").lastOccurrenceAt = some 2 := by decide

/-- Claim C5, counterexample: the claim says `fail_messages` clears
`inQueue` regardless of the `DontDelete` flag, but with `DontDelete=true`
it returns at once and the pair `(u1, alice)` keeps `inQueue=true`. -/
theorem C5_counterexample :
    ((fail_messages exBatch true).store "u1" "alice").inQueue = true := by decide

/-- Claim C6, counterexample: the group of alice holds a live record with voice
VoiceA followed by an expired record with voice VoiceB; `write_speech`
returns the voice of the last record of the whole group (VoiceB), not of
the last concatenated non-expired record (VoiceA) as the claim says; and
when the accumulated groups are non-empty but hold nothing for alice, the
code raises `KeyError` instead of returning `None`. -/
theorem C6_counterexample :
    ((write_speech (fun t => t) exC6 "alice" 5).2 =
      .ok (some ("VoiceB", "<speak><p>hello</p></speak>"))) ∧
    ((write_speech (fun t => t) exC6k "alice" 5).2 = .error "KeyError") := by decide

/-- Claim C7, counterexample: after a receive on the standard channel
(fetching the record of alice) followed by a receive on the bot channel
(fetching the record of bob), the group of alice is still held by the instance —
`self.messages` is never reset between calls, so the groups do not contain
only records fetched by the most recent call. -/
theorem C7_counterexample :
    (assocLookup ((get_messages (get_messages exC7 "" "Message" 10).1
      "" "Bot" 10).1.messages) "alice" = some [mA1]) ∧
    (assocLookup ((get_messages (get_messages exC7 "" "Message" 10).1
      "" "Bot" 10).1.messages) "bob" = some [mBot1]) := by decide

/-- Claim C10, counterexample: with two records in the standard channel,
`reset` fails and deletes only the first one — `get_messages` returns
after its first processed record and `reset` performs a single receive
pass per channel — so the channel still holds the second record, while
the claim requires the channel to be fully drained. -/
theorem C10_counterexample : (reset exC10).queue = [mB1] := by decide

/-- Claim C1, amended: when `get_messages` returns a batch, that batch is
the single first matching fetched record, its Occurrence State `inQueue`
flag is set to FALSE (not true) at fetch time — `get_messages` passes the
literal `False` to `Scheduler.update_queue_status` — and the record matches
the recipient filter when one is set; records after the first match are
not processed at all. -/
theorem C1_amended (s : SysState) (pn ty : String) (n : Nat) (ms : List Msg)
    (h : (get_messages s pn ty n).2 = some ms) :
    ∃ m, ms = [m] ∧
      ((get_messages s pn ty n).1.store m.uuid_key m.person_name).inQueue = false ∧
      (pn ≠ "" → m.person_name = pn) := by
  obtain ⟨m, hms, hpn, hst⟩ := (get_messages_spec s pn ty n).2 ms h
  refine ⟨m, hms, ?_, hpn⟩
  rw [hst]
  exact update_queue_status_self s.store m.uuid_key m.person_name false

/-- Claim C1, witness: on a fresh state holding one record for alice, the
amended theorem applies with the returned batch `[mA1]`. -/
theorem C1_amended_witness :
    ∃ m, ([mA1] : List Msg) = [m] ∧
      ((get_messages exC1 "" "Message" 10).1.store m.uuid_key m.person_name).inQueue
        = false ∧
      (("" : String) ≠ "" → m.person_name = "") :=
  C1_amended exC1 "" "Message" 10 [mA1] (by decide)

/-- Claim C3, amended: `succeed_messages` with `DontDelete=true` is a
complete no-op — it neither applies the success-path Occurrence State
updates nor deletes channel entries; the state is returned unchanged. -/
theorem C3_amended (s : SysState) (now : Nat) : succeed_messages s true now = s := rfl

/-- Claim C5, amended: with `suppressDeletion=false`, `fail_messages`
clears `inQueue` for every record in the batch and never touches
`lastOccurrenceAt` or `expired` at any key; with `suppressDeletion=true`
it is a complete no-op and does not clear `inQueue` at all. -/
theorem C5_amended (s : SysState) :
    fail_messages s true = s ∧
    (∀ u p,
      ((fail_messages s false).store u p).lastOccurrenceAt
          = (s.store u p).lastOccurrenceAt ∧
      ((fail_messages s false).store u p).expired = (s.store u p).expired) ∧
    (∀ m, m ∈ s.sqs_msgs →
      ((fail_messages s false).store m.uuid_key m.person_name).inQueue = false) := by
  have hstore : (fail_messages s false).store
      = List.foldl (fun st m => update_queue_status st m.uuid_key m.person_name false)
          s.store s.sqs_msgs := by
    simp only [fail_messages, Bool.false_eq_true, if_false, delete_sqs_store]
  refine ⟨rfl, ?_, ?_⟩
  · intro u p
    rw [hstore]
    exact fail_fold_frame s.sqs_msgs s.store u p
  · intro m hm
    rw [hstore]
    exact fail_fold_clears s.sqs_msgs s.store m hm

/-- Claim C5, witness: on the pending batch holding `mA1`, the amended
theorem clears the `inQueue` flag of `(u1, alice)` and leaves its
`lastOccurrenceAt` untouched. -/
theorem C5_amended_witness :
    ((fail_messages exBatch false).store mA1.uuid_key mA1.person_name).inQueue = false ∧
    ((fail_messages exBatch false).store "u1" "alice").lastOccurrenceAt
        = (exBatch.store "u1" "alice").lastOccurrenceAt :=
  ⟨(C5_amended exBatch).2.2 mA1 (by decide),
   ((C5_amended exBatch).2.1 "u1" "alice").1⟩

/-- Claim C6, amended: when the recipient has a group in the accumulated
batch and it keeps at least one non-expired record, `write_speech` returns
the markup wrapping exactly the non-expired bodies in paragraph delimiters
together with the voice of the LAST record of the whole group — expired or
not — rather than the last concatenated record; (`None` is returned when
the whole dict is empty or every record of the group is expired, and a
missing group with a non-empty dict raises `KeyError`.) -/
theorem C6_amended (rt : String → String) (s : SysState) (p : String) (now : Nat)
    (g : List Msg) (mLast : Msg)
    (hg : assocLookup ((get_messages s p "Message" 10).1.messages) p = some g)
    (hlive : g.filter (fun m => !(m.is_expired now)) ≠ [])
    (hlast : g.getLast? = some mLast) :
    (write_speech rt s p now).2 =
      .ok (some (mLast.voice_id,
        rt ("<speak>" ++ paragraphConcat g now ++ "</speak>"))) := by
  have hne : ¬(write_speech_body g now = "<speak>") := by
    rw [write_speech_body_eq, speak_prepend_eq]
    exact paragraphConcat_ne_empty now g hlive
  simp only [write_speech]
  rw [if_neg (assocLookup_length_pos _ p g hg), hg]
  dsimp only
  rw [if_neg hne, hlast]
  dsimp only
  rw [write_speech_body_eq]

/-- Claim C6, witness: on the group of alice holding a live record followed by
an expired one, the amended theorem returns the live body wrapped in the
markup and the voice of the last (expired) record. -/
theorem C6_amended_witness :
    (write_speech (fun t => t) exC6 "alice" 5).2 =
      .ok (some (mExp.voice_id,
        ("<speak>" ++ paragraphConcat [mA1, mExp] 5 ++ "</speak>"))) :=
  C6_amended (fun t => t) exC6 "alice" 5 [mA1, mExp] mExp (by decide) (by decide) rfl

/-- Claim C7, amended: each `get_messages` call replaces only the raw
batch `self.sqs_msgs` — afterwards it holds exactly the records returned
by that call (or nothing when the call returned `None`) — while the
per-recipient groups in `self.messages` are never cleared: every
previously accumulated group survives the call, possibly extended, so the
groups may mix records of different receive calls. -/
theorem C7_amended (s : SysState) (pn ty : String) (n : Nat) :
    ((get_messages s pn ty n).2 = none → (get_messages s pn ty n).1.sqs_msgs = []) ∧
    (∀ ms, (get_messages s pn ty n).2 = some ms →
      (get_messages s pn ty n).1.sqs_msgs = ms) ∧
    (∀ k v, assocLookup s.messages k = some v →
      ∃ w, assocLookup ((get_messages s pn ty n).1.messages) k = some (v ++ w)) := by
  refine ⟨?_, ?_, ?_⟩
  · intro h
    rw [(get_messages_spec s pn ty n).1 h]
  · intro ms h
    obtain ⟨m, hms, _, hst⟩ := (get_messages_spec s pn ty n).2 ms h
    rw [hst, hms]
  · intro k v hv
    cases hres : (get_messages s pn ty n).2 with
    | none =>
      rw [(get_messages_spec s pn ty n).1 hres]
      exact ⟨[], by simpa using hv⟩
    | some ms =>
      obtain ⟨m, _, _, hst⟩ := (get_messages_spec s pn ty n).2 ms hres
      rw [hst]
      exact ⟨_, assocAppend_lookup m.person_name m s.messages k v hv⟩

/-- Claim C7, witness: receiving on a state with a stale raw batch and a
previously accumulated group for carol replaces the raw batch with the
newly returned `[mA1]` while the group for carol survives. -/
theorem C7_amended_witness :
    ((get_messages exC7w "" "Message" 10).1.sqs_msgs = [mA1]) ∧
    (∃ w, assocLookup ((get_messages exC7w "" "Message" 10).1.messages) "carol"
        = some ([mB1] ++ w)) :=
  ⟨(C7_amended exC7w "" "Message" 10).2.1 [mA1] (by decide),
   (C7_amended exC7w "" "Message" 10).2.2 "carol" [mB1] (by decide)⟩

/-- Claim C8 (confirmed): a valid publish request — recipient, body and
defaulted id all non-empty — places the produced record on exactly one
channel: the bot queue when `BotNames` is truthy, the standard queue
otherwise; the other channel is untouched. -/
theorem C8_routing (s : SysState) (a : PublishArgs) (g : String) (hnd : Nat)
    (hp : a.personName ≠ "") (hu : a.uuidArg.getD g ≠ "") (hb : a.body ≠ "") :
    publish_message s a g hnd =
      .ok (if optTruthy a.botNames
        then { s with botQueue := s.botQueue ++ [publishedMsg a g hnd] }
        else { s with queue := s.queue ++ [publishedMsg a g hnd] }) := by
  simp only [publish_message]
  rw [if_neg hp, if_neg hu, if_neg hb]
  by_cases hbn : optTruthy a.botNames = true
  · rw [if_pos hbn, if_pos hbn]
  · rw [if_neg hbn, if_neg hbn]

/-- Claim C8, witness: a valid request with bot names lands on the bot
queue of the concrete state `exC1`. -/
theorem C8_routing_witness :
    publish_message exC1 a8 "gen" 9 =
      .ok (if optTruthy a8.botNames
        then { exC1 with botQueue := exC1.botQueue ++ [publishedMsg a8 "gen" 9] }
        else { exC1 with queue := exC1.queue ++ [publishedMsg a8 "gen" 9] }) :=
  C8_routing exC1 a8 "gen" 9 (by decide) (by decide) (by decide)

/-- Claim C9 (confirmed): `publish_message` rejects a request exactly when
`PersonName` is empty, the `UUID` resolves empty after defaulting, or the
`Body` is empty; rejection yields an error and nothing is published, and a
request with all three non-empty passes this validation. -/
theorem C9_validation (s : SysState) (a : PublishArgs) (g : String) (hnd : Nat) :
    isErr (publish_message s a g hnd) =
      (a.personName == "" || a.uuidArg.getD g == "" || a.body == "") := by
  simp only [publish_message]
  by_cases hp : a.personName = "" <;> by_cases hu : a.uuidArg.getD g = "" <;>
    by_cases hb : a.body = "" <;> by_cases hbn : optTruthy a.botNames = true <;>
      simp [hp, hu, hb, hbn, isErr]

/-- Claim C10, amended: `reset` performs a single receive pass per channel
(interactive first, then standard) and each pass fails and deletes only
the head record of its channel — the receive loop returns after the first
processed record — so each channel retains everything beyond its head
record and is not fully drained. -/
theorem C10_amended (s : SysState)
    (hq : ∀ m ∈ s.queue, m.fromBot = false)
    (hb : ∀ m ∈ s.botQueue, m.fromBot = true) :
    (reset s).queue = drop_first_by_handle s.queue ∧
    (reset s).botQueue = drop_first_by_handle s.botQueue := by
  obtain ⟨h1q, h1b⟩ := reset_bot_phase s hb
  have hreset : reset s = delete_sqs_msgs (fail_messages
      ((get_messages
        (delete_sqs_msgs (fail_messages ((get_messages s "" "Bot" 10).1) false))
        "" "Message" 10).1) false) := rfl
  obtain ⟨h2q, h2b⟩ := reset_std_phase
    (delete_sqs_msgs (fail_messages ((get_messages s "" "Bot" 10).1) false))
    (by rw [h1q]; exact hq)
  rw [hreset, h2q, h2b, h1q, h1b]
  exact ⟨rfl, rfl⟩

/-- Claim C10, witness: on a state with two standard records and an empty
bot channel, `reset` leaves exactly the records beyond the head of each
channel. -/
theorem C10_amended_witness :
    (reset exC10).queue = drop_first_by_handle exC10.queue ∧
    (reset exC10).botQueue = drop_first_by_handle exC10.botQueue :=
  C10_amended exC10 (by decide) (by decide)

end Pollexy
